import Mathlib

/-!
Verification of the course search / recommendation / dashboard core of
the Online-Course-Recommendation-App repository (`app.py`, `dashboard.py`).

Strings are modelled as Lean `String`s (with character-list operations
mirroring Python's `str` / pandas `.str` behaviour on ASCII data),
machine floats as exact rationals or reals, pandas DataFrames as lists
of rows plus an explicit column-name list, and raised Python exceptions
as `Except` errors.
-/

namespace CourseApp

/-! ### String utilities (Python `in`, `str.upper`, `str.strip`) -/

/-- Python list/string equality test used below: `pat` is a prefix of `s`. -/
def prefOf : List Char → List Char → Bool
  | [], _ => true
  | _ :: _, [] => false
  | a :: as, b :: bs => a = b && prefOf as bs

/-- Python's substring operator `pat in s` on character lists. -/
def containsSub (pat : List Char) : List Char → Bool
  | [] => prefOf pat []
  | c :: rest => prefOf pat (c :: rest) || containsSub pat rest

/-- Case-insensitive literal containment, as pandas'
`Series.str.contains(pat, case=False, regex=False)` computes it:
both sides are upper-cased and Python's `in` operator is applied
(`f = lambda x: upper_pat in x.upper()` in pandas' object-array path). -/
def strContainsCI (pat s : String) : Bool :=
  containsSub (pat.data.map Char.toUpper) (s.data.map Char.toUpper)

/-- Python's `term.strip() == ""` test: every character is whitespace
(true in particular for the empty string). -/
def stripEmpty (t : String) : Bool :=
  t.data.all Char.isWhitespace

/-! ### `search_term` (app.py lines 137-153)

The catalog is modelled by its `course_title` column, a list of title
strings in row order (`df['course_title'].astype(str)`); `df[mask]`
keeps exactly the rows whose mask entry is true, in row order. -/

/-- pandas boolean-mask row selection `df[mask]`. -/
def selectMask : List String → List Bool → List String
  | s :: ss, b :: bs => if b then s :: selectMask ss bs else selectMask ss bs
  | _, _ => []

/-- `search_term(term, df)` from app.py.  `term = none` models Python
`None`.  The guard `term is None or term.strip() == ""` returns the
empty selection `df.iloc[0:0]`; otherwise the rows whose title contains
the term (case-insensitive, `regex=False` so always literal) are kept.
Total by construction: the `regex=False` path of pandas performs no
pattern compilation, so no input can raise. -/
def search_term (term : Option String) (titles : List String) : List String :=
  match term with
  | none => []
  | some t =>
    if stripEmpty t then []
    else selectMask titles (titles.map (fun s => strContainsCI t s))

/-! ### Price coercion in `year_wise_profit` (dashboard.py lines 56-61)

The source runs three elementwise steps over the `price` column:
`str.replace(r"TRUE|Free", "0", regex=True)`, then
`str.replace(r"[^\d\.]", "", regex=True)`, then
`pd.to_numeric(..., errors="coerce").fillna(0.0)`.  Floats are modelled
exactly as rationals. -/

/-- `re.sub("TRUE|Free", "0", s)`: scan left to right, replacing each
non-overlapping occurrence of `TRUE` or `Free` by `0`. -/
def replaceSentinels : List Char → List Char
  | 'T' :: 'R' :: 'U' :: 'E' :: rest => '0' :: replaceSentinels rest
  | 'F' :: 'r' :: 'e' :: 'e' :: rest => '0' :: replaceSentinels rest
  | c :: rest => c :: replaceSentinels rest
  | [] => []

/-- `re.sub(r"[^\d\.]", "", s)`: keep only ASCII digits and dots. -/
def stripNonNumeric (cs : List Char) : List Char :=
  cs.filter (fun c => c.isDigit || c = '.')

/-- Value of a digit string read in base 10. -/
def digitsToNat (cs : List Char) : ℕ :=
  cs.foldl (fun n c => 10 * n + (c.toNat - 48)) 0

/-- `pd.to_numeric(s, errors="coerce")` restricted to the strings this
pipeline can produce (digits and dots): parses `[digits].[digits]` with
at least one digit and at most one dot; anything else (in particular
`""`, `"."`, or several dots) yields `none` (pandas NaN). -/
def toNumericOpt (cs : List Char) : Option ℚ :=
  if cs.all (fun c => c.isDigit || c = '.') && cs.any Char.isDigit
      && (cs.filter (fun c => c = '.')).length ≤ 1 then
    let ip := cs.takeWhile (fun c => c ≠ '.')
    let fp := (cs.drop (ip.length + 1))
    some ((digitsToNat ip : ℚ) + (digitsToNat fp : ℚ) / (10 : ℚ) ^ fp.length)
  else none

/-- The whole price-coercion pipeline of `year_wise_profit` applied to
one cell, `fillna(0.0)` included. -/
def coercePrice (s : String) : ℚ :=
  (toNumericOpt (stripNonNumeric (replaceSentinels s.data))).getD 0

/-! ### `recommend_course` (app.py lines 156-180)

The DataFrame is again modelled by its `course_title` column in row
order; `df.index` after `read_data` is the range `0, …, N-1`.  Raised
exceptions are modelled by `Except` errors.  The returned DataFrame
`df.iloc[rec_indices]` with its added `score` column is modelled as the
list of `(row index, score)` pairs in output order (the row index is
the stable identity of a catalog record).  Scores are any linearly
ordered type, as Python's `sorted` only compares them. -/

/-- The Python exceptions `recommend_course` can raise:
`KeyError` (title not found), `TypeError` (`int()` applied to a
multi-element Series, see `dropDupValues`), `IndexError` (row index out
of range). -/
inductive RecommendError
  | keyError
  | typeError
  | indexError
  deriving DecidableEq

/-- `Series.drop_duplicates()` keeps the first occurrence of each
duplicated VALUE (here: the row index, which is always unique), not of
each duplicated index label. `seen` accumulates values already kept. -/
def dropDupValuesAux (seen : List ℕ) : List (String × ℕ) → List (String × ℕ)
  | [] => []
  | p :: rest =>
    if seen.contains p.2 then dropDupValuesAux seen rest
    else p :: dropDupValuesAux (p.2 :: seen) rest

/-- `pd.Series(df.index, index=titles).drop_duplicates()` as an
association list of (title label, row-index value) pairs. -/
def dropDupValues (l : List (String × ℕ)) : List (String × ℕ) :=
  dropDupValuesAux [] l

/-- Stable insertion: place `x` before the first `y` with `le x y`. -/
def insertBy (le : α → α → Bool) (x : α) : List α → List α
  | [] => [x]
  | y :: ys => if le x y then x :: y :: ys else y :: insertBy le x ys

/-- Stable insertion sort.  Python's `sorted` is a stable sort, and any
stable sort for the same total preorder produces the same output list,
so this models `sorted(..., key=..., reverse=True)` exactly once `le`
is instantiated with the corresponding "may come first" relation. -/
def isortBy (le : α → α → Bool) : List α → List α
  | [] => []
  | x :: xs => insertBy le x (isortBy le xs)

/-- `recommend_course(df, titlename, cosine_mat, num_rec)` from app.py.
Steps, mirroring the source line by line:
`course_index = pd.Series(df.index, index=titles).drop_duplicates()`;
`KeyError` when `titlename` is not a label of it; `idx =
int(course_index[titlename])` — a scalar when exactly one row carries
the title, otherwise a multi-element Series on which `int()` raises
`TypeError`; `sim_scores = list(enumerate(cosine_mat[idx]))`; stable
sort by score descending (`key=lambda x: x[1], reverse=True`); slice
`[1:num_rec+1]`; `df.iloc[rec_indices]` (an `IndexError` when an index
is out of range) paired with the `score` column. -/
def recommend_course [LinearOrder α] (titles : List String) (titlename : String)
    (cosine_mat : List (List α)) (num_rec : ℕ) :
    Except RecommendError (List (ℕ × α)) :=
  let course_index := dropDupValues (titles.zip (List.range titles.length))
  let hits := (course_index.filter (fun p => p.1 = titlename)).map (fun p => p.2)
  match hits with
  | [] => .error .keyError
  | [idx] =>
    match cosine_mat[idx]? with
    | none => .error .indexError
    | some row =>
      let sim_scores := (List.range row.length).zip row
      let sorted := isortBy (fun a b => decide (b.2 ≤ a.2)) sim_scores
      let picked := (sorted.drop 1).take num_rec
      if (picked.map (fun p => p.1)).all (fun i => i < titles.length) then .ok picked
      else .error .indexError
  | _ :: _ :: _ => .error .typeError

/-! ### Dashboard aggregation helpers (dashboard.py lines 11-42)

A DataFrame is modelled as an explicit column-name list plus a list of
rows; the helpers only consult the three fields below.  The source
returns Python dicts built by `.to_dict()` / `dict(zip(...))`, modelled
as association lists with pairwise-distinct keys (a dict's key order
carries no meaning; the `sort_values` call of the source is kept where
it occurs). -/

/-- One catalog record, restricted to the fields the dashboard helpers
read. -/
structure Row where
  subject : String
  num_subscribers : ℤ
  level : String
  deriving DecidableEq

/-- A DataFrame: its column names and its rows. -/
structure Table where
  cols : List String
  rows : List Row
  deriving DecidableEq

/-- `get_value_counts(df)`: guarded on the presence of the `subject`
and `num_subscribers` columns, then
`df.groupby("subject")["num_subscribers"].sum().sort_values(ascending=False).to_dict()`:
one entry per distinct subject, holding the sum of `num_subscribers`
over the rows with that subject, sorted by descending total. -/
def get_value_counts (t : Table) : List (String × ℤ) :=
  if t.cols.contains "subject" && t.cols.contains "num_subscribers" then
    isortBy (fun a b => decide (b.2 ≤ a.2))
      (((t.rows.map Row.subject).dedup).map
        (fun s => (s, ((t.rows.filter (fun r => r.subject = s)).map Row.num_subscribers).sum)))
  else []

/-- `get_level_count(df)`: guarded on the `level` column, then
`df.groupby("level").size().sort_values(ascending=False).to_dict()`:
one entry per distinct level, holding the number of rows with that
level. -/
def get_level_count (t : Table) : List (String × ℕ) :=
  if t.cols.contains "level" then
    isortBy (fun a b => decide (b.2 ≤ a.2))
      (((t.rows.map Row.level).dedup).map
        (fun s => (s, (t.rows.filter (fun r => r.level = s)).length)))
  else []

/-- `get_subjects_per_level(df)`: guarded on the `subject` and `level`
columns, then `df.groupby(["subject","level"]).size()` with keys
formatted as the subject, an underscore, and the level, zipped into a dict: one entry per
distinct (subject, level) pair, holding the number of rows with that
pair. -/
def get_subjects_per_level (t : Table) : List (String × ℕ) :=
  if t.cols.contains "subject" && t.cols.contains "level" then
    ((t.rows.map (fun r => (r.subject, r.level))).dedup).map
      (fun p => (p.1 ++ "_" ++ p.2,
        (t.rows.filter (fun r => r.subject = p.1 && r.level = p.2)).length))
  else []

/-! ### `build_tfidf_matrix` (app.py lines 121-131)

The source delegates to scikit-learn:
`TfidfVectorizer(stop_words='english').fit_transform(df[col].astype(str))`
followed by `cosine_similarity(tfidf_matrix)`.  The library behaviour
is modelled here: the default analyzer lower-cases each document and
extracts the maximal word-character runs of length ≥ 2 (token pattern
`\b\w\w+\b`), removes English stop words, and raises
`ValueError("empty vocabulary ...")` when no term survives; term counts
are weighted by smoothed idf `ln((1+n)/(1+df)) + 1` and each row is
L2-normalised (rows of norm 0 are left unchanged, `normalize` replaces
zero norms by 1); `cosine_similarity(X)` is `normalize(X) @
normalize(X).T`.  Floats are modelled as exact reals. -/

/-- Python regex `\w` on ASCII text: letters, digits, underscore. -/
def isWordChar (c : Char) : Bool :=
  c.isAlphanum || c = '_'

/-- Maximal runs of word characters, left to right (`cur` is the
current run, reversed). -/
def splitRunsAux (cur : List Char) : List Char → List (List Char)
  | [] => if cur.isEmpty then [] else [cur.reverse]
  | c :: rest =>
    if isWordChar c then splitRunsAux (c :: cur) rest
    else if cur.isEmpty then splitRunsAux [] rest
    else cur.reverse :: splitRunsAux [] rest

/-- Maximal word-character runs of a character list. -/
def splitRuns (cs : List Char) : List (List Char) :=
  splitRunsAux [] cs

/-- scikit-learn's default word analyzer: lower-case, then keep the
word-character runs with at least two characters (`\b\w\w+\b`). -/
def tokenize (s : String) : List String :=
  ((splitRuns (s.data.map Char.toLower)).filter (fun t => 2 ≤ t.length)).map
    (fun cs => String.mk cs)

/-- scikit-learn's `ENGLISH_STOP_WORDS` frozenset (the list passed as
`stop_words='english'`). -/
def englishStopWords : List String :=
  ["a", "about", "above", "across", "after", "afterwards", "again", "against",
   "all", "almost", "alone", "along", "already", "also", "although", "always",
   "am", "among", "amongst", "amoungst", "amount", "an", "and", "another",
   "any", "anyhow", "anyone", "anything", "anyway", "anywhere", "are", "around",
   "as", "at", "back", "be", "became", "because", "become", "becomes",
   "becoming", "been", "before", "beforehand", "behind", "being", "below",
   "beside", "besides", "between", "beyond", "bill", "both", "bottom", "but",
   "by", "call", "can", "cannot", "cant", "co", "con", "could", "couldnt",
   "cry", "de", "describe", "detail", "do", "done", "down", "due", "during",
   "each", "eg", "eight", "either", "eleven", "else", "elsewhere", "empty",
   "enough", "etc", "even", "ever", "every", "everyone", "everything",
   "everywhere", "except", "few", "fifteen", "fifty", "fill", "find", "fire",
   "first", "five", "for", "former", "formerly", "forty", "found", "four",
   "from", "front", "full", "further", "get", "give", "go", "had", "has",
   "hasnt", "have", "he", "hence", "her", "here", "hereafter", "hereby",
   "herein", "hereupon", "hers", "herself", "him", "himself", "his", "how",
   "however", "hundred", "i", "ie", "if", "in", "inc", "indeed", "interest",
   "into", "is", "it", "its", "itself", "keep", "last", "latter", "latterly",
   "least", "less", "ltd", "made", "many", "may", "me", "meanwhile", "might",
   "mill", "mine", "more", "moreover", "most", "mostly", "move", "much",
   "must", "my", "myself", "name", "namely", "neither", "never",
   "nevertheless", "next", "nine", "no", "nobody", "none", "noone", "nor",
   "not", "nothing", "now", "nowhere", "of", "off", "often", "on", "once",
   "one", "only", "onto", "or", "other", "others", "otherwise", "our", "ours",
   "ourselves", "out", "over", "own", "part", "per", "perhaps", "please",
   "put", "rather", "re", "same", "see", "seem", "seemed", "seeming", "seems",
   "serious", "several", "she", "should", "show", "side", "since", "sincere",
   "six", "sixty", "so", "some", "somehow", "someone", "something",
   "sometime", "sometimes", "somewhere", "still", "such", "system", "take",
   "ten", "than", "that", "the", "their", "them", "themselves", "then",
   "thence", "there", "thereafter", "thereby", "therefore", "therein",
   "thereupon", "these", "they", "thick", "thin", "third", "this", "those",
   "though", "three", "through", "throughout", "thru", "thus", "to",
   "together", "too", "top", "toward", "towards", "twelve", "twenty", "two",
   "un", "under", "until", "up", "upon", "us", "very", "via", "was", "we",
   "well", "were", "what", "whatever", "when", "whence", "whenever", "where",
   "whereafter", "whereas", "whereby", "wherein", "whereupon", "wherever",
   "whether", "which", "while", "whither", "who", "whoever", "whole", "whom",
   "whose", "why", "will", "with", "within", "without", "would", "yet", "you",
   "your", "yours", "yourself", "yourselves"]

/-- The learned vocabulary: every token of the corpus that is not a
stop word, deduplicated and sorted alphabetically (scikit-learn sorts
its feature names). -/
def buildVocabulary (docs : List String) : List String :=
  isortBy (fun a b => decide (a ≤ b))
    ((((docs.map tokenize).flatten).filter (fun w => !(englishStopWords.contains w))).dedup)

/-- Number of occurrences of term `w` in a document. -/
def termCount (doc : String) (w : String) : ℕ :=
  ((tokenize doc).filter (fun u => u = w)).length

/-- Dot product of two rows (trailing entries of the longer row are
ignored; all rows built here have equal length). -/
def dotL : List ℝ → List ℝ → ℝ
  | a :: as, b :: bs => a * b + dotL as bs
  | _, _ => 0

/-- Euclidean norm of a row. -/
noncomputable def normL (v : List ℝ) : ℝ :=
  Real.sqrt (dotL v v)

/-- scikit-learn's `normalize` on one row: divide by the L2 norm,
zero norms being replaced by 1 (so an all-zero row stays all-zero). -/
noncomputable def normalizeL (v : List ℝ) : List ℝ :=
  v.map (fun x => x / (if normL v = 0 then 1 else normL v))

/-- `sklearn.metrics.pairwise.cosine_similarity(X)` =
`normalize(X) @ normalize(X).T`: entry (i, j) is the dot product of
the normalised rows i and j. -/
noncomputable def cosine_similarity (X : List (List ℝ)) : List (List ℝ)  :=
  X.map (fun v => X.map (fun w => dotL (normalizeL v) (normalizeL w)))

/-- Entry (i, j) of a matrix (0 when out of range). -/
noncomputable def entry (M : List (List ℝ)) (i j : ℕ) : ℝ :=
  (M.getD i []).getD j 0

/-- Smoothed inverse document frequency of term `w`:
`ln((1 + n)/(1 + df)) + 1` with `n` the corpus size and `df` the number
of documents containing `w`. -/
noncomputable def idfWeight (docs : List String) (w : String) : ℝ :=
  Real.log ((1 + (docs.length : ℝ)) / (1 + ((docs.filter (fun d => (tokenize d).contains w)).length : ℝ))) + 1

/-- One row of the TF-IDF matrix: per-term counts times idf,
L2-normalised. -/
noncomputable def tfidfRow (docs : List String) (vocab : List String) (doc : String) : List ℝ :=
  normalizeL (vocab.map (fun w => (termCount doc w : ℝ) * idfWeight docs w))

/-- `build_tfidf_matrix(df, col)` from app.py (after its column-presence
guard): `fit_transform` raises `ValueError` when the vocabulary is
empty, otherwise the pair `(tfidf_matrix, cosine_mat)` is returned. -/
noncomputable def build_tfidf_matrix (docs : List String) :
    Except String (List (List ℝ) × List (List ℝ)) :=
  let vocab := buildVocabulary docs
  if vocab.isEmpty then
    .error "empty vocabulary; perhaps the documents only contain stop words"
  else
    let tfidf := docs.map (fun d => tfidfRow docs vocab d)
    .ok (tfidf, cosine_similarity tfidf)

end CourseApp

namespace CourseApp

/-! ### General lemmas about the above definitions -/

theorem selectMask_map (p : String → Bool) (l : List String) :
    selectMask l (l.map p) = l.filter p := by
  induction l with
  | nil => rfl
  | cons s ss ih =>
    by_cases h : p s <;> simp [selectMask, List.filter, h, ih]

theorem insertBy_perm (le : α → α → Bool) (x : α) (l : List α) :
    (insertBy le x l).Perm (x :: l) := by
  induction l with
  | nil => exact List.Perm.refl _
  | cons y ys ih =>
    by_cases h : le x y
    · simp [insertBy, h]
    · simp only [insertBy, h, if_false]
      exact ((ih.cons y).trans (List.Perm.swap x y ys))

theorem isortBy_perm (le : α → α → Bool) (l : List α) :
    (isortBy le l).Perm l := by
  induction l with
  | nil => exact List.Perm.refl _
  | cons x xs ih =>
    exact (insertBy_perm le x (isortBy le xs)).trans (ih.cons x)

theorem isortBy_length (le : α → α → Bool) (l : List α) :
    (isortBy le l).length = l.length :=
  (isortBy_perm le l).length_eq

theorem mem_isortBy (le : α → α → Bool) (l : List α) (a : α) :
    a ∈ isortBy le l ↔ a ∈ l :=
  (isortBy_perm le l).mem_iff

theorem dropDupValuesAux_of_nodup (l : List (String × ℕ)) :
    ∀ seen : List ℕ, (l.map Prod.snd).Nodup →
      (∀ p ∈ l, seen.contains p.2 = false) → dropDupValuesAux seen l = l := by
  induction l with
  | nil => intro seen _ _; rfl
  | cons p rest ih =>
    intro seen hnd hseen
    have hp : seen.contains p.2 = false := hseen p (List.mem_cons_self p rest)
    have hnd' : p.2 ∉ rest.map Prod.snd ∧ (rest.map Prod.snd).Nodup := by
      rw [List.map_cons] at hnd
      exact List.nodup_cons.mp hnd
    simp only [dropDupValuesAux, hp, Bool.false_eq_true, if_false]
    refine congrArg (p :: ·) (ih (p.2 :: seen) hnd'.2 ?_)
    intro q hq
    have hq2 : q.2 ≠ p.2 := by
      intro h
      exact hnd'.1 (h ▸ List.mem_map_of_mem Prod.snd hq)
    have hq3 : seen.contains q.2 = false := hseen q (List.mem_cons_of_mem p hq)
    simp only [List.contains_cons, Bool.or_eq_false_iff]
    exact ⟨by simpa using hq2, hq3⟩

theorem zip_range_snd_nodup (ts : List String) :
    ((ts.zip (List.range ts.length)).map Prod.snd).Nodup := by
  have h : (ts.zip (List.range ts.length)).map Prod.snd = List.range ts.length := by
    apply List.map_snd_zip
    simp
  rw [h]
  exact List.nodup_range ts.length

theorem filter_zip_length (t : String) :
    ∀ (ts : List String) (ns : List ℕ), ts.length = ns.length →
      ((ts.zip ns).filter (fun p => p.1 = t)).length
        = (ts.filter (fun s => s = t)).length := by
  intro ts
  induction ts with
  | nil => intro ns _; rfl
  | cons s ss ih =>
    intro ns hlen
    cases ns with
    | nil => simp at hlen
    | cons n ns =>
      have ih' := ih ns (by simpa using hlen)
      by_cases h : s = t <;>
        rw [List.zip_cons_cons, List.filter_cons, List.filter_cons] <;>
        simp [h, ih']

theorem sum_filter_split (f : α → ℤ) (p : α → Bool) (l : List α) :
    ((l.filter p).map f).sum + ((l.filter (fun x => ! p x)).map f).sum
      = (l.map f).sum := by
  induction l with
  | nil => simp
  | cons a l ih =>
    by_cases h : p a <;> simp [List.filter, h] <;> linarith

theorem sum_fibers (key : Row → String) (f : Row → ℤ) :
    ∀ (ks : List String) (rows : List Row), ks.Nodup →
      (∀ r ∈ rows, key r ∈ ks) →
      (ks.map (fun s => ((rows.filter (fun r => key r = s)).map f).sum)).sum
        = (rows.map f).sum := by
  intro ks
  induction ks with
  | nil =>
    intro rows _ hcov
    have : rows = [] := by
      cases rows with
      | nil => rfl
      | cons r rs => exact absurd (hcov r (List.mem_cons_self r rs)) (List.not_mem_nil _)
    simp [this]
  | cons k ks ih =>
    intro rows hnd hcov
    have hnd1 := (List.nodup_cons.mp hnd).1
    have hnd2 := (List.nodup_cons.mp hnd).2
    have hsplit := sum_filter_split f (fun r => key r = k) rows
    have hrest : (ks.map (fun s =>
        ((rows.filter (fun r => key r = s)).map f).sum)).sum
        = (((rows.filter (fun r => ! (key r = k))).map f).sum) := by
      have hcov' : ∀ r ∈ rows.filter (fun r => ! (key r = k)), key r ∈ ks := by
        intro r hr
        have hr1 := List.of_mem_filter hr
        have hr2 := List.mem_of_mem_filter hr
        have := hcov r hr2
        cases List.mem_cons.mp this with
        | inl h => simp [h] at hr1
        | inr h => exact h
      have hfib : ∀ s ∈ ks,
          rows.filter (fun r => key r = s)
            = (rows.filter (fun r => ! (key r = k))).filter (fun r => key r = s) := by
        intro s hs
        rw [List.filter_filter]
        apply List.filter_congr
        intro r _
        by_cases h : key r = s
        · have hne : key r ≠ k := fun hk => hnd1 ((h.symm.trans hk) ▸ hs)
          simp [h, hne]
          exact fun hk => hne (h.trans hk)
        · simp [h]
      calc (ks.map (fun s => ((rows.filter (fun r => key r = s)).map f).sum)).sum
          = (ks.map (fun s => (((rows.filter (fun r => ! (key r = k))).filter
              (fun r => key r = s)).map f).sum)).sum := by
            apply congrArg List.sum
            apply List.map_congr_left
            intro s hs
            dsimp only
            rw [hfib s hs]
        _ = (((rows.filter (fun r => ! (key r = k))).map f).sum) :=
            ih (rows.filter (fun r => ! (key r = k))) hnd2 hcov'
    simp only [List.map_cons, List.sum_cons, hrest]
    linarith

theorem dotL_comm (v : List ℝ) : ∀ w : List ℝ, dotL v w = dotL w v := by
  induction v with
  | nil => intro w; cases w <;> simp [dotL]
  | cons a as ih =>
    intro w
    cases w with
    | nil => simp [dotL]
    | cons b bs => simp [dotL, ih bs, mul_comm]

theorem dotL_self_nonneg (v : List ℝ) : 0 ≤ dotL v v := by
  induction v with
  | nil => simp [dotL]
  | cons a as ih => simpa [dotL] using add_nonneg (mul_self_nonneg a) ih

theorem eq_zero_of_dotL_self (v : List ℝ) (h : dotL v v = 0) : ∀ x ∈ v, x = 0 := by
  induction v with
  | nil => simp
  | cons a as ih =>
    have h1 : a * a + dotL as as = 0 := by simpa [dotL] using h
    have ha : a * a = 0 := le_antisymm (by linarith [dotL_self_nonneg as]) (mul_self_nonneg a)
    have ha0 : a = 0 := by
      have := mul_self_eq_zero.mp ha
      exact this
    have has : dotL as as = 0 := by linarith
    intro x hx
    cases List.mem_cons.mp hx with
    | inl hxa => exact hxa ▸ ha0
    | inr hxs => exact ih has x hxs

theorem dotL_zero_left (v : List ℝ) (hv : ∀ x ∈ v, x = 0) :
    ∀ w : List ℝ, dotL v w = 0 := by
  induction v with
  | nil => intro w; cases w <;> simp [dotL]
  | cons a as ih =>
    intro w
    cases w with
    | nil => simp [dotL]
    | cons b bs =>
      have ha : a = 0 := hv a (List.mem_cons_self a as)
      have ih' := ih (fun x hx => hv x (List.mem_cons_of_mem a hx)) bs
      simp [dotL, ha, ih']

theorem dotL_map_div (a b : ℝ) (v : List ℝ) :
    ∀ w : List ℝ, dotL (v.map (fun x => x / a)) (w.map (fun x => x / b))
      = dotL v w / (a * b) := by
  induction v with
  | nil => intro w; cases w <;> simp [dotL]
  | cons x xs ih =>
    intro w
    cases w with
    | nil => simp [dotL]
    | cons y ys =>
      simp only [List.map_cons, dotL, ih ys]
      rw [div_mul_div_comm, div_add_div_same]

theorem normalizeL_zero (v : List ℝ) (hv : ∀ x ∈ v, x = 0) :
    ∀ x ∈ normalizeL v, x = 0 := by
  intro x hx
  rcases List.mem_map.mp hx with ⟨y, hy, hxy⟩
  rw [← hxy, hv y hy, zero_div]

theorem dotL_normalizeL_self (v : List ℝ) (h : dotL v v ≠ 0) :
    dotL (normalizeL v) (normalizeL v) = 1 := by
  have hpos : 0 < dotL v v := lt_of_le_of_ne (dotL_self_nonneg v) (Ne.symm h)
  have hnorm : normL v ≠ 0 := by
    simp only [normL]
    positivity
  simp only [normalizeL, hnorm, if_false]
  rw [dotL_map_div]
  rw [show normL v * normL v = dotL v v from Real.mul_self_sqrt (le_of_lt hpos)]
  exact div_self h

theorem getD_map_of_lt (f : α → β) (l : List α) (i : ℕ) (hi : i < l.length)
    (d : α) (e : β) : (l.map f).getD i e = f (l.getD i d) := by
  simp [List.getD, List.getElem?_map, List.getElem?_eq_getElem hi]

theorem entry_cosine_similarity (X : List (List ℝ)) (i j : ℕ)
    (hi : i < X.length) (hj : j < X.length) :
    entry (cosine_similarity X) i j
      = dotL (normalizeL (X.getD i [])) (normalizeL (X.getD j [])) := by
  unfold entry cosine_similarity
  rw [getD_map_of_lt (fun v => X.map fun w => dotL (normalizeL v) (normalizeL w)) X i hi []]
  rw [getD_map_of_lt (fun w => dotL (normalizeL (X.getD i [])) (normalizeL w)) X j hj []]

end CourseApp

namespace CourseApp

/-! ### Claim theorems -/

/-- C1 (code bug evidence): `recommend_course` CAN return the query
title's own row.  In the catalog `["A", "B"]` with the all-ones cosine
matrix (realised e.g. by two distinct raw titles with identical clean
titles), querying `"B"` resolves to row 1, yet the single returned
recommendation is row 1 itself — the source's `sim_scores[1:]` drops
the FIRST element of the stable descending sort, which is row 0 here,
not the query's row.  The second conjunct records that row 1 is indeed
the query's row.  This contradicts the claim (and the source's own
`# Exclude itself` comment), so the claim is right and the code wrong. -/
theorem c1_own_row_returned :
    recommend_course ["A", "B"] "B" [[(1 : ℤ), 1], [1, 1]] 1 = .ok [(1, 1)]
    ∧ ["A", "B"].getD 1 "" = "B" :=
  ⟨rfl, rfl⟩

/-- C2 counterexample: the claim quantifies over every NON-EMPTY query
string, but for the non-empty whitespace query `" "` and the catalog
`["a b"]`, `search_term` returns no rows even though the title `"a b"`
does contain `" "` as a case-insensitive literal substring — a false
negative, because the source's guard treats whitespace-only terms like
empty ones. -/
theorem c2_counterexample :
    search_term (some " ") ["a b"] = [] ∧ strContainsCI " " "a b" = true :=
  ⟨rfl, rfl⟩

/-- C2 (amended to queries that are non-empty after stripping
whitespace): for every such query `q`, `search_term` returns exactly
the records whose title contains `q` as a case-insensitive literal
substring — no false positives or negatives, in original catalog order
without truncation (the `filter` equation implies all of these), and
totally (no regex is ever compiled, `regex=False`). -/
theorem c2_search_exact (q : String) (titles : List String)
    (h : stripEmpty q = false) :
    search_term (some q) titles = titles.filter (fun t => strContainsCI q t) := by
  simp only [search_term, h, Bool.false_eq_true, if_false, selectMask_map]

/-- Witness for C2 at a query containing regex metacharacters. -/
theorem c2_search_exact_witness :
    search_term (some "C++") ["Learn C++ fast", "Python basics"]
      = ["Learn C++ fast", "Python basics"].filter (fun t => strContainsCI "C++" t) :=
  c2_search_exact "C++" ["Learn C++ fast", "Python basics"] rfl

/-- C3 (code bug evidence): with duplicate titles the query row is NOT
resolved to the first occurrence; `int(course_index[titlename])` raises
`TypeError` because `drop_duplicates()` deduplicates the Series'
values (the distinct row indices 0..N-1) rather than its title labels,
so both rows survive and `int()` is applied to a 2-element Series. -/
theorem c3_duplicate_title_raises :
    recommend_course ["A", "A"] "A" [[(1 : ℤ), 1], [1, 1]] 10
      = .error .typeError :=
  rfl

/-- C4 counterexample: on the all-empty corpus `["", ""]` the pipeline
DOES raise — scikit-learn's `fit_transform` finds no term and raises
`ValueError("empty vocabulary ...")` — contradicting the claim that
`build_tfidf_matrix` does not raise there. -/
theorem c4_counterexample :
    build_tfidf_matrix ["", ""]
      = .error "empty vocabulary; perhaps the documents only contain stop words" :=
  rfl

/-- C4 (amended): for every corpus in which each clean title is the
empty string, `build_tfidf_matrix` raises the empty-vocabulary
`ValueError` instead of returning a degenerate matrix; the downstream
cosine-similarity computation itself does define the similarity of an
all-zero vector to every row (itself included) as 0 — never NaN or a
division-by-zero error, since `normalize` replaces zero norms by 1. -/
theorem c4_empty_corpus (docs : List String) (hall : ∀ d ∈ docs, d = "")
    (v w : List ℝ) (hv : dotL v v = 0) :
    build_tfidf_matrix docs
      = .error "empty vocabulary; perhaps the documents only contain stop words"
    ∧ dotL (normalizeL v) (normalizeL w) = 0 := by
  constructor
  · have hvocab : buildVocabulary docs = [] := by
      have htok : (docs.map tokenize).flatten = [] := by
        rw [List.flatten_eq_nil_iff]
        intro x hx
        rcases List.mem_map.mp hx with ⟨d, hd, hxd⟩
        rw [← hxd, hall d hd]
        rfl
      rw [buildVocabulary, htok]
      rfl
    simp [build_tfidf_matrix, hvocab]
  · exact dotL_zero_left (normalizeL v) (normalizeL_zero v (eq_zero_of_dotL_self v hv))
      (normalizeL w)

/-- Witness for C4 at the one-document all-empty corpus and the zero
vector `[0]` against the row `[5]`. -/
theorem c4_empty_corpus_witness :
    build_tfidf_matrix [""]
      = .error "empty vocabulary; perhaps the documents only contain stop words"
    ∧ dotL (normalizeL [0]) (normalizeL [5]) = 0 :=
  c4_empty_corpus [""] (by simp) [0] [5] (by norm_num [dotL])

/-- C5: every cosine similarity matrix produced by the pipeline (the
statement holds for `cosine_similarity` of ANY real matrix, hence in
particular for the one built by `build_tfidf_matrix`) is symmetric at
all in-range index pairs, and its diagonal entry is exactly 1 at every
row whose vector is non-zero (i.e. has a non-zero self-dot-product). -/
theorem c5_diag_symm (X : List (List ℝ)) (i j : ℕ)
    (hi : i < X.length) (hj : j < X.length) :
    entry (cosine_similarity X) i j = entry (cosine_similarity X) j i
    ∧ (dotL (X.getD i []) (X.getD i []) ≠ 0 → entry (cosine_similarity X) i i = 1) := by
  constructor
  · rw [entry_cosine_similarity X i j hi hj, entry_cosine_similarity X j i hj hi,
      dotL_comm]
  · intro h
    rw [entry_cosine_similarity X i i hi hi]
    exact dotL_normalizeL_self _ h

/-- Witness for C5 on the 2×2 identity-like matrix. -/
theorem c5_diag_symm_witness :
    entry (cosine_similarity [[(1 : ℝ), 0], [0, 1]]) 0 1
      = entry (cosine_similarity [[(1 : ℝ), 0], [0, 1]]) 1 0
    ∧ entry (cosine_similarity [[(1 : ℝ), 0], [0, 1]]) 0 0 = 1 :=
  ⟨(c5_diag_symm [[(1 : ℝ), 0], [0, 1]] 0 1 (by simp) (by simp)).1,
   (c5_diag_symm [[(1 : ℝ), 0], [0, 1]] 0 0 (by simp) (by simp)).2
     (by norm_num [List.getD, dotL])⟩

/-- C6 counterexample: the claim quantifies over EVERY matching query
title, but when the matching title is duplicated (`["A", "A"]`, query
`"A"`, `top_k = 5 ≥ N - 1`), `recommend_course` raises `TypeError`
instead of returning the `min(top_k, N-1) = 1` available rows. -/
theorem c6_counterexample :
    recommend_course ["A", "A"] "A" [[(1 : ℤ), 1], [1, 1]] 5
      = .error .typeError :=
  rfl

/-- C6 (amended to query titles matching exactly one record): for every
catalog of size N whose similarity matrix is N×N and every `top_k`,
`recommend_course` succeeds and returns exactly `min(top_k, N-1)`
(record, score) pairs; in particular it never raises when
`top_k ≥ N-1`. -/
theorem c6_unique_title_length {α : Type} [LinearOrder α] (titles : List String)
    (titlename : String) (cosine_mat : List (List α)) (num_rec : ℕ)
    (hsq : cosine_mat.length = titles.length)
    (hrows : ∀ row ∈ cosine_mat, row.length = titles.length)
    (huniq : (titles.filter (fun s => s = titlename)).length = 1) :
    (recommend_course titles titlename cosine_mat num_rec).toOption.map List.length
      = some (min num_rec (titles.length - 1)) := by
  have hdrop : dropDupValues (titles.zip (List.range titles.length))
      = titles.zip (List.range titles.length) :=
    dropDupValuesAux_of_nodup _ [] (zip_range_snd_nodup titles) (fun p _ => rfl)
  have hlen : ((titles.zip (List.range titles.length)).filter
      (fun p => p.1 = titlename)).length = 1 := by
    rw [filter_zip_length titlename titles (List.range titles.length) (by simp)]
    exact huniq
  obtain ⟨p, hp⟩ := List.length_eq_one.mp hlen
  obtain ⟨a, b⟩ := p
  have hpmem : (a, b) ∈ titles.zip (List.range titles.length) :=
    List.mem_of_mem_filter (hp ▸ List.mem_singleton_self (a, b))
  have hb : b < titles.length := List.mem_range.mp (List.of_mem_zip hpmem).2
  have hb' : b < cosine_mat.length := by
    rw [hsq]
    exact hb
  have hrow : cosine_mat[b]? = some cosine_mat[b] := List.getElem?_eq_getElem hb'
  have hrowlen : cosine_mat[b].length = titles.length := hrows _ (List.getElem_mem hb')
  unfold recommend_course
  simp only []
  rw [hdrop, hp]
  simp only [List.map_cons, List.map_nil]
  rw [hrow]
  simp only []
  have hslen : (isortBy (fun a b : ℕ × α => decide (b.2 ≤ a.2))
      ((List.range cosine_mat[b].length).zip cosine_mat[b])).length
      = cosine_mat[b].length := by
    rw [isortBy_length, List.length_zip, List.length_range, min_self]
  have hguard : (((((isortBy (fun a b : ℕ × α => decide (b.2 ≤ a.2))
      ((List.range cosine_mat[b].length).zip cosine_mat[b])).drop 1).take
        num_rec).map (fun p => p.1)).all (fun i => i < titles.length)) = true := by
    rw [List.all_eq_true]
    intro i hi
    rcases List.mem_map.mp hi with ⟨q, hq, hqi⟩
    obtain ⟨j, x⟩ := q
    have hq1 : (j, x) ∈ isortBy (fun a b : ℕ × α => decide (b.2 ≤ a.2))
        ((List.range cosine_mat[b].length).zip cosine_mat[b]) :=
      List.mem_of_mem_drop (List.mem_of_mem_take hq)
    have hq2 : (j, x) ∈ (List.range cosine_mat[b].length).zip cosine_mat[b] :=
      (mem_isortBy _ _ _).mp hq1
    have hj : j < cosine_mat[b].length := List.mem_range.mp (List.of_mem_zip hq2).1
    rw [← hqi]
    simp only [decide_eq_true_eq]
    rw [← hrowlen]
    exact hj
  rw [if_pos hguard]
  simp only [Except.toOption, Option.map_some']
  rw [List.length_take, List.length_drop, hslen, hrowlen]

/-- Witness for C6: a 3-row catalog, uniquely matching query, and
`top_k = 5 ≥ N - 1 = 2`. -/
theorem c6_unique_title_length_witness :
    (recommend_course ["A", "B", "C"] "B"
      [[(10 : ℤ), 3, 7], [3, 10, 2], [7, 2, 10]] 5).toOption.map List.length
      = some 2 := by
  have h := c6_unique_title_length ["A", "B", "C"] "B"
    [[(10 : ℤ), 3, 7], [3, 10, 2], [7, 2, 10]] 5 rfl (by decide) (by decide)
  simpa using h

/-- C7: `search_term` maps a null, empty, or whitespace-only term to
the empty result set (the guard `term is None or term.strip() == ""`),
raising nothing. -/
theorem c7_blank_term (term : Option String) (titles : List String)
    (h : term = none ∨ ∃ s, term = some s ∧ stripEmpty s = true) :
    search_term term titles = [] := by
  rcases h with h | ⟨s, hs, hblank⟩
  · rw [h]
    rfl
  · rw [hs]
    simp [search_term, hblank]

/-- Witness for C7 on a whitespace-only term over a non-empty catalog. -/
theorem c7_blank_term_witness :
    search_term (some " \t ") ["Python for Beginners"] = [] :=
  c7_blank_term (some " \t ") ["Python for Beginners"]
    (Or.inr ⟨" \t ", rfl, rfl⟩)

/-- Evaluation helper for `coercePrice`: once the character-level
pipeline output `cs` and its parse guard are established, the coerced
value is the parsed decimal. -/
theorem coercePrice_eval (s : String) (cs : List Char) (q : ℚ)
    (h1 : stripNonNumeric (replaceSentinels s.data) = cs)
    (h2 : (cs.all (fun c => c.isDigit || c = '.') && cs.any Char.isDigit
      && ((cs.filter (fun c => c = '.')).length ≤ 1 : Bool)) = true)
    (h5 : (digitsToNat (cs.takeWhile (fun c => c ≠ '.')) : ℚ)
      + (digitsToNat (cs.drop ((cs.takeWhile (fun c => c ≠ '.')).length + 1)) : ℚ)
        / (10 : ℚ) ^ (cs.drop ((cs.takeWhile (fun c => c ≠ '.')).length + 1)).length
      = q) :
    coercePrice s = q := by
  rw [coercePrice, h1, toNumericOpt, if_pos h2, Option.getD_some, h5]

/-- C8: the price coercion of `year_wise_profit` maps `"10.0"` to 10.0,
`"Free"` and `"TRUE"` to 0.0, `"$12.99"` to 12.99, and any string whose
cleaned form fails to parse as a number (pandas NaN) to 0.0 via
`fillna(0.0)` rather than raising. -/
theorem c8_price_coercion (s : String)
    (h : toNumericOpt (stripNonNumeric (replaceSentinels s.data)) = none) :
    coercePrice "10.0" = 10 ∧ coercePrice "Free" = 0 ∧ coercePrice "TRUE" = 0
    ∧ coercePrice "$12.99" = 1299 / 100 ∧ coercePrice s = 0 := by
  refine ⟨?_, ?_, ?_, ?_, ?_⟩
  · refine coercePrice_eval "10.0" "10.0".data 10 (by decide) (by decide) ?_
    have e1 : "10.0".data.takeWhile (fun c => c ≠ '.') = "10".data := by decide
    rw [e1]
    have e2 : "10.0".data.drop ("10".data.length + 1) = "0".data := by decide
    rw [e2]
    have e3 : digitsToNat "10".data = 10 := by decide
    have e4 : digitsToNat "0".data = 0 := by decide
    rw [e3, e4]
    norm_num
  · refine coercePrice_eval "Free" ['0'] 0 (by decide) (by decide) ?_
    have e1 : ['0'].takeWhile (fun c => c ≠ '.') = ['0'] := by decide
    rw [e1]
    have e2 : List.drop (['0'].length + 1) ['0'] = ([] : List Char) := by decide
    rw [e2]
    have e3 : digitsToNat ['0'] = 0 := by decide
    have e4 : digitsToNat [] = 0 := by decide
    rw [e3, e4]
    norm_num
  · refine coercePrice_eval "TRUE" ['0'] 0 (by decide) (by decide) ?_
    have e1 : ['0'].takeWhile (fun c => c ≠ '.') = ['0'] := by decide
    rw [e1]
    have e2 : List.drop (['0'].length + 1) ['0'] = ([] : List Char) := by decide
    rw [e2]
    have e3 : digitsToNat ['0'] = 0 := by decide
    have e4 : digitsToNat [] = 0 := by decide
    rw [e3, e4]
    norm_num
  · refine coercePrice_eval "$12.99" "12.99".data (1299 / 100) (by decide) (by decide) ?_
    have e1 : "12.99".data.takeWhile (fun c => c ≠ '.') = "12".data := by decide
    rw [e1]
    have e2 : "12.99".data.drop ("12".data.length + 1) = "99".data := by decide
    rw [e2]
    have e3 : digitsToNat "12".data = 12 := by decide
    have e4 : digitsToNat "99".data = 99 := by decide
    rw [e3, e4]
    norm_num
  · rw [coercePrice, h]
    rfl

/-- Witness for C8 at the unparseable price string `"abc"`. -/
theorem c8_price_coercion_witness :
    coercePrice "10.0" = 10 ∧ coercePrice "Free" = 0 ∧ coercePrice "TRUE" = 0
    ∧ coercePrice "$12.99" = 1299 / 100 ∧ coercePrice "abc" = 0 :=
  c8_price_coercion "abc" rfl

/-- C9: whenever the `subject` and `num_subscribers` columns are both
present, the per-subject subscriber totals of `get_value_counts` sum to
the total of `num_subscribers` over the whole catalog (the fibers of
the group-by partition the rows; the sort permutes only). -/
theorem c9_subject_sum (t : Table)
    (h1 : t.cols.contains "subject" = true)
    (h2 : t.cols.contains "num_subscribers" = true) :
    ((get_value_counts t).map Prod.snd).sum = (t.rows.map Row.num_subscribers).sum := by
  have hguard : (t.cols.contains "subject" && t.cols.contains "num_subscribers") = true := by
    rw [h1, h2]
    rfl
  rw [get_value_counts, if_pos hguard]
  have hperm := (isortBy_perm (fun a b => decide (b.2 ≤ a.2))
      (((t.rows.map Row.subject).dedup).map
        (fun s => (s, ((t.rows.filter (fun r => r.subject = s)).map
          Row.num_subscribers).sum)))).map Prod.snd
  rw [hperm.sum_eq, List.map_map]
  have := sum_fibers Row.subject Row.num_subscribers
    ((t.rows.map Row.subject).dedup) t.rows (List.nodup_dedup _)
    (fun r hr => List.mem_dedup.mpr (List.mem_map_of_mem Row.subject hr))
  simpa [Function.comp] using this

/-- Witness for C9 on a three-row catalog with a repeated subject. -/
theorem c9_subject_sum_witness :
    ((get_value_counts ⟨["subject", "num_subscribers"],
        [⟨"Dev", 150, "B"⟩, ⟨"Biz", 300, "I"⟩, ⟨"Dev", 50, "B"⟩]⟩).map Prod.snd).sum
      = (([⟨"Dev", 150, "B"⟩, ⟨"Biz", 300, "I"⟩, ⟨"Dev", 50, "B"⟩] : List Row).map
          Row.num_subscribers).sum :=
  c9_subject_sum ⟨["subject", "num_subscribers"],
    [⟨"Dev", 150, "B"⟩, ⟨"Biz", 300, "I"⟩, ⟨"Dev", 50, "B"⟩]⟩ rfl rfl

/-- C10: each aggregation helper returns the empty mapping instead of
raising when a column it requires is absent: `get_value_counts` without
`subject` or `num_subscribers`, `get_level_count` without `level`,
`get_subjects_per_level` without `subject` or `level`. -/
theorem c10_missing_columns (t : Table) :
    ((t.cols.contains "subject" = false ∨ t.cols.contains "num_subscribers" = false)
      → get_value_counts t = [])
    ∧ (t.cols.contains "level" = false → get_level_count t = [])
    ∧ ((t.cols.contains "subject" = false ∨ t.cols.contains "level" = false)
      → get_subjects_per_level t = []) := by
  refine ⟨?_, ?_, ?_⟩
  · intro h
    rw [get_value_counts]
    rcases h with h | h <;> rw [h] <;> simp
  · intro h
    rw [get_level_count, h]
    rfl
  · intro h
    rw [get_subjects_per_level]
    rcases h with h | h <;> rw [h] <;> simp

/-- Witness for C10 on a table having only a `price` column. -/
theorem c10_missing_columns_witness :
    get_value_counts ⟨["price"], [⟨"s", 1, "l"⟩]⟩ = []
    ∧ get_level_count ⟨["price"], [⟨"s", 1, "l"⟩]⟩ = []
    ∧ get_subjects_per_level ⟨["price"], [⟨"s", 1, "l"⟩]⟩ = [] :=
  ⟨(c10_missing_columns ⟨["price"], [⟨"s", 1, "l"⟩]⟩).1 (Or.inl (by decide)),
   (c10_missing_columns ⟨["price"], [⟨"s", 1, "l"⟩]⟩).2.1 (by decide),
   (c10_missing_columns ⟨["price"], [⟨"s", 1, "l"⟩]⟩).2.2 (Or.inl (by decide))⟩

end CourseApp
